import Mathlib

/-!
# Teams API resolvers (`src/api/src/index.js`)

A shallow embedding of the GraphQL mutation resolvers `authenticate`,
`sendMemberInviteSG`, `verifyTeamInvite` and `createTeam`, together with the
helpers `createMember` and `getUser`.

Modelling conventions.

* A JavaScript promise is represented by the way it settles: `resolved v`,
  `rejected e`, or `pending` (it never settles).  An `async` function whose
  body throws yields `rejected`; awaiting a promise that never settles yields
  `pending`.
* Collaborators that the file imports but does not define (`validateIdToken`,
  `verifyInviteToken`, `sendTeamMemberInvite`, `axios.post`) and the injected
  store client `ctx.db` are parameters of every resolver.
* Every resolver threads a `World`: the state of the store and the list of
  collaborator calls issued so far, in order.  Logging calls are not recorded.
* Strings are sequences of Unicode scalar values, so `encodeURI` (lines 164 and
  177), which only throws on lone surrogates, is total here; its results are
  only logged and are not modelled.
* `decodeURI` (line 166) is modelled in full: it throws a `URIError` on a
  malformed percent sequence, and the requester subject is pasted unescaped
  into the string it is applied to.
-/

namespace TeamsApi

/-! ## JavaScript values -/

/-- A JavaScript error object: the name of its constructor and its message. -/
structure JsError where
  name : String
  message : String
deriving DecidableEq, Repr

/-- The object built by `new Error(message)`. -/
def newError (message : String) : JsError :=
  { name := "Error", message := message }

/-- The `TypeError` raised by reading property `prop` of `null` or of
`undefined`.  The message names the property; which of the two the base was is
not modelled. -/
def typeErrorReading (prop : String) : JsError :=
  { name := "TypeError", message := "Cannot read property " ++ prop }

/-- The `URIError` thrown by `decodeURI`. -/
def uriError : JsError :=
  { name := "URIError", message := "URI malformed" }

/-- The value of a hexadecimal digit. -/
def hexValue (c : Char) : Option Nat :=
  if '0' ≤ c ∧ c ≤ '9' then some (c.toNat - '0'.toNat)
  else if 'a' ≤ c ∧ c ≤ 'f' then some (c.toNat - 'a'.toNat + 10)
  else if 'A' ≤ c ∧ c ≤ 'F' then some (c.toNat - 'A'.toNat + 10)
  else none

/-- A unit of a URI string: a character other than `%`, or an escape `%h1h2`
with the byte it denotes. -/
inductive UriToken where
  | lit (c : Char)
  | byte (b : Nat) (h1 h2 : Char)
deriving DecidableEq, Repr

/-- The first pass of `decodeURI`: every `%` must be followed by two
hexadecimal digits.  The result is `none` when one is not. -/
def uriTokens : List Char → Option (List UriToken)
  | [] => some []
  | c :: rest =>
    if c = '%' then
      match rest with
      | h1 :: h2 :: rest2 =>
        match hexValue h1, hexValue h2 with
        | some x, some y =>
          (uriTokens rest2).map (fun ts => UriToken.byte (16 * x + y) h1 h2 :: ts)
        | _, _ => none
      | _ => none
    else (uriTokens rest).map (fun ts => UriToken.lit c :: ts)

/-- The characters that `decodeURI` leaves escaped. -/
def uriReserved : List Char := [';', '/', '?', ':', '@', '&', '=', '+', '$', ',', '#']

/-- The second pass of `decodeURI`.  The first argument is the number of
continuation bytes still expected, the next two bound the next continuation
byte, the fourth is the code point read so far.  An escaped byte below `0x80`
is decoded, except to a reserved character, whose escape is kept; a lead byte
must be followed by escaped continuation bytes that complete a well-formed
UTF-8 sequence (no overlong form, no surrogate, nothing above `0x10FFFF`).
The result is `none` where `decodeURI` throws. -/
def decodeTokens : Nat → Nat → Nat → Nat → List UriToken → Option (List Char)
  | 0, _, _, _, [] => some []
  | _ + 1, _, _, _, [] => none
  | 0, _, _, _, .lit c :: ts => (decodeTokens 0 0 0 0 ts).map (fun cs => c :: cs)
  | _ + 1, _, _, _, .lit _ :: _ => none
  | 0, _, _, _, .byte b h1 h2 :: ts =>
    if b < 0x80 then
      if Char.ofNat b ∈ uriReserved then
        (decodeTokens 0 0 0 0 ts).map (fun cs => '%' :: h1 :: h2 :: cs)
      else (decodeTokens 0 0 0 0 ts).map (fun cs => Char.ofNat b :: cs)
    else if 0xC2 ≤ b ∧ b ≤ 0xDF then decodeTokens 1 0x80 0xBF (b % 0x20) ts
    else if b = 0xE0 then decodeTokens 2 0xA0 0xBF (b % 0x10) ts
    else if b = 0xED then decodeTokens 2 0x80 0x9F (b % 0x10) ts
    else if 0xE1 ≤ b ∧ b ≤ 0xEF then decodeTokens 2 0x80 0xBF (b % 0x10) ts
    else if b = 0xF0 then decodeTokens 3 0x90 0xBF (b % 0x08) ts
    else if 0xF1 ≤ b ∧ b ≤ 0xF3 then decodeTokens 3 0x80 0xBF (b % 0x08) ts
    else if b = 0xF4 then decodeTokens 3 0x80 0x8F (b % 0x08) ts
    else none
  | n + 1, lo, hi, acc, .byte b _ _ :: ts =>
    if lo ≤ b ∧ b ≤ hi then
      if n = 0 then
        (decodeTokens 0 0 0 0 ts).map (fun cs => Char.ofNat (acc * 0x40 + b % 0x40) :: cs)
      else decodeTokens n 0x80 0xBF (acc * 0x40 + b % 0x40) ts
    else none

/-- The global function `decodeURI`: the decoded string, or the `URIError`
thrown on a malformed percent sequence. -/
def decodeURI (s : String) : Except JsError String :=
  match (uriTokens s.toList).bind (decodeTokens 0 0 0 0) with
  | some cs => .ok (String.mk cs)
  | none => .error uriError

/-- How a promise settles. -/
inductive Promise (α : Type) where
  | resolved (value : α)
  | rejected (reason : JsError)
  | pending
deriving DecidableEq, Repr

/-- String interpolation of a nullable string inside a template literal. -/
def interpolate : Option String → String
  | some s => s
  | none => "null"

/-! ## Data exchanged with the collaborators -/

/-- Identifiers generated by the store. -/
abbrev Id := Nat

/-- The decoded identity token (`memberToken`): only `sub` and `nickname` are
read.  Here and below an optional field is `none` when the JavaScript value is
`null` or `undefined`. -/
structure IdToken where
  sub : String
  nickname : Option String
deriving DecidableEq, Repr

/-- The claims decoded from an invitation token: `email` and `team` are read. -/
structure InviteClaims where
  email : Option String
  team : Option String
deriving DecidableEq, Repr

/-- A member row as returned by the store. -/
structure Member where
  id : Id
  authId : String
  /-- The field `alias` of the source; `alias` is reserved in Lean. -/
  alias_ : Option String
deriving DecidableEq, Repr

/-- Modelled from the spec: the `member` object nested in an element of
`team.members`.  The teams fragment that selects the fields is not among the
sources, which read `alias` only; `authId` follows section 3. -/
structure MemberView where
  authId : String
  alias_ : Option String
deriving DecidableEq, Repr

/-- Modelled from the spec: an element of `team.members`.  The teams fragment
that selects the fields is not among the sources, which read `member` only;
`role`, `status` and `email` follow the membership of section 3. -/
structure TeamMemberView where
  role : Option String
  status : Option String
  email : Option String
  member : Option MemberView
deriving DecidableEq, Repr

/-- Modelled from the spec: a team as the store returns it through the teams
fragment, which is not among the sources.  The sources read `members` only;
the other fields follow the team of section 3. -/
structure Team where
  id : Id
  name : String
  slug : String
  owner : String
  members : List TeamMemberView
deriving DecidableEq, Repr

/-- The value `{ create: { status, reason } }` of a status field. -/
structure StatusCreate where
  status : String
  reason : String
deriving DecidableEq, Repr

/-- The value `{ create: { authId, alias, visible, status } }` of a `member` field. -/
structure MemberCreate where
  authId : String
  alias_ : Option String
  visible : String
  status : StatusCreate
deriving DecidableEq, Repr

/-- The create (or update) input of a team membership.  Each field is
optional: `none` means that the object literal in the source does not have
the field.  `team` holds the id of `{ connect: { id } }`. -/
structure TeamMembersInput where
  role : Option String
  email : Option String
  member : Option MemberCreate
  team : Option Id
  status : Option StatusCreate
deriving DecidableEq, Repr

/-- The value `{ create: { avatar, banner } }` of the `profile` field. -/
structure ProfileCreate where
  avatar : String
  banner : String
deriving DecidableEq, Repr

/-- The value `{ create: { name, slug, kind, avatar, status } }` of the `fb` field. -/
structure FbCreate where
  name : String
  slug : String
  kind : String
  avatar : String
  status : StatusCreate
deriving DecidableEq, Repr

/-- The `data` object passed to `ctx.db.mutation.createTeam`.  `members` is
the list of memberships under `members.create`. -/
structure TeamCreateData where
  name : String
  slug : String
  owner : String
  members : List TeamMembersInput
  profile : ProfileCreate
  fb : FbCreate
  status : StatusCreate
deriving DecidableEq, Repr

/-- The `create` and `update` objects of `upsertMember`. -/
structure MemberInput where
  authId : String
  alias_ : Option String
deriving DecidableEq, Repr

/-- The argument of `ctx.db.mutation.upsertMember`; `where_` is `where.authId`. -/
structure UpsertMemberArgs where
  where_ : String
  create : MemberInput
  update : MemberInput
deriving DecidableEq, Repr

/-- The argument of `ctx.db.mutation.upsertTeamMembers`; `where_` is `where.email`. -/
structure UpsertTeamMembersArgs where
  where_ : String
  create : TeamMembersInput
  update : TeamMembersInput
deriving DecidableEq, Repr

/-- The record `users_UserByAuthId` of the lookup response. -/
structure UserRecord where
  id : Option String
  alias_ : Option String
  email : Option String
deriving DecidableEq, Repr

/-- The `data` object of the GraphQL response body. -/
structure GraphQLData where
  users_UserByAuthId : Option UserRecord
deriving DecidableEq, Repr

/-- The GraphQL response body (`result.data` of the HTTP response). -/
structure ResponseBody where
  data : Option GraphQLData
deriving DecidableEq, Repr

/-- The HTTP response object that `axios.post` resolves with. -/
structure AxiosResponse where
  data : ResponseBody
deriving DecidableEq, Repr

/-- The behaviour of one `axios.post` call: it throws synchronously, or it
returns a promise. -/
inductive AxiosOutcome where
  | threw (error : JsError)
  | returned (promise : Promise AxiosResponse)
deriving DecidableEq, Repr

/-- What the promise of `getUser` is resolved with: the response body, or
(line 281) an error object. -/
inductive GetUserResult where
  | body (b : ResponseBody)
  | error (e : JsError)
deriving DecidableEq, Repr

/-- What the promise of the `createTeam` resolver is resolved with: the team
returned by the store, or (lines 209 and 218) an error object. -/
inductive CreateTeamResult where
  | team (t : Team)
  | error (e : JsError)
deriving DecidableEq, Repr

/-- The `team` object of the value returned by `verifyTeamInvite`. -/
structure InviteTeamRef where
  slug : Option String
deriving DecidableEq, Repr

/-- The value returned by `verifyTeamInvite`. -/
structure TeamInvite where
  email : Option String
  team : InviteTeamRef
deriving DecidableEq, Repr

/-- The object `ctx.request.user`. -/
structure RequestUser where
  sub : String
deriving DecidableEq, Repr

/-- The object `ctx.request`; `user` is absent on an unauthenticated request. -/
structure Request where
  user : Option RequestUser
deriving DecidableEq, Repr

/-- The part of the resolver context that is not the store client. -/
structure Ctx where
  request : Request
deriving DecidableEq, Repr

/-- The arguments of the `createTeam` mutation. -/
structure CreateTeamArgs where
  name : String
  slug : String
  botName : String
  botSlug : String
deriving DecidableEq, Repr

/-! ## Collaborators and the world -/

/-- The imported collaborators other than the store. -/
structure Services where
  validateIdToken : String → Promise (Option IdToken)
  verifyInviteToken : String → Promise (Option InviteClaims)
  axiosPost : String → AxiosOutcome
  sendTeamMemberInvite : String → Team → Promise String

/-- The store client `ctx.db` over a store state `σ`: each operation returns
how its promise settles and the state of the store afterwards. -/
structure Db (σ : Type) where
  queryMember : σ → String → Promise (Option Member) × σ
  queryTeam : σ → Id → Promise (Option Team) × σ
  upsertMember : σ → UpsertMemberArgs → Promise Member × σ
  upsertTeamMembers : σ → UpsertTeamMembersArgs → Promise Id × σ
  createTeam : σ → TeamCreateData → Promise Team × σ

/-- A call issued to a collaborator. -/
inductive Event where
  | validateIdToken (idToken : String)
  | verifyInviteToken (token : String)
  | axiosPost (authId : String)
  | sendTeamMemberInvite (email : String) (team : Team)
  | queryMember (authId : String)
  | queryTeam (teamId : Id)
  | upsertMember (args : UpsertMemberArgs)
  | upsertTeamMembers (args : UpsertTeamMembersArgs)
  | createTeam (data : TeamCreateData)
deriving DecidableEq, Repr

/-- The calls `ctx.db.mutation.*`. -/
def Event.isStoreWrite : Event → Bool
  | .upsertMember _ => true
  | .upsertTeamMembers _ => true
  | .createTeam _ => true
  | _ => false

/-- The calls `ctx.db.query.*` and `ctx.db.mutation.*`. -/
def Event.isStoreAccess : Event → Bool
  | .queryMember _ => true
  | .queryTeam _ => true
  | e => e.isStoreWrite

/-- The state of the store and the collaborator calls issued so far. -/
structure World (σ : Type) where
  store : σ
  trace : List Event

/-- Records one collaborator call. -/
def World.log {σ : Type} (w : World σ) (e : Event) : World σ :=
  { w with trace := w.trace ++ [e] }

/-- The calls issued between world `w` and the later world `w2`. -/
def World.since {σ : Type} (w w2 : World σ) : List Event :=
  w2.trace.drop w.trace.length

/-! ## `createMember` (lines 35-51) -/

/-- The argument object that `createMember` builds. -/
def createMemberArgs (idToken : IdToken) : UpsertMemberArgs :=
  { where_ := idToken.sub
    create := { authId := idToken.sub, alias_ := idToken.nickname }
    update := { authId := idToken.sub, alias_ := idToken.nickname } }

/-- The helper `createMember`: one `upsertMember` call, whose result is returned. -/
def createMember {σ : Type} (db : Db σ) (idToken : IdToken) (w : World σ) :
    Promise Member × World σ :=
  let args := createMemberArgs idToken
  let r := db.upsertMember w.store args
  (r.1, { store := r.2, trace := w.trace ++ [Event.upsertMember args] })

/-! ## `authenticate` (lines 108-128) -/

/-- The resolver `Mutation.authenticate`. -/
def authenticate {σ : Type} (svc : Services) (db : Db σ) (idToken : String) (w : World σ) :
    Promise Member × World σ :=
  let w1 := w.log (Event.validateIdToken idToken)
  match svc.validateIdToken idToken with
  | .pending => (.pending, w1)
  | .rejected err => (.rejected (newError err.message), w1)
  | .resolved none => (.rejected (typeErrorReading "sub"), w1)
  | .resolved (some memberToken) =>
    let authId := memberToken.sub
    let r := db.queryMember w1.store authId
    let w2 : World σ := { store := r.2, trace := w1.trace ++ [Event.queryMember authId] }
    match r.1 with
    | .pending => (.pending, w2)
    | .rejected e => (.rejected e, w2)
    | .resolved (some member) => (.resolved member, w2)
    | .resolved none => createMember db memberToken w2

/-! ## `sendMemberInviteSG` (lines 129-138) -/

/-- The expression `team.members[0].member.alias`, with the `TypeError` it
raises when `team`, the first membership, or its member is missing. -/
def firstMemberAlias : Option Team → Except JsError (Option String)
  | none => .error (typeErrorReading "members")
  | some team =>
    match team.members.head? with
    | none => .error (typeErrorReading "member")
    | some m =>
      match m.member with
      | none => .error (typeErrorReading "alias")
      | some member => .ok member.alias_

/-- The argument object passed to `upsertTeamMembers`. -/
def inviteArgs (email : String) (teamId : Id) (alias_ : Option String) :
    UpsertTeamMembersArgs :=
  { where_ := email
    create :=
      { role := some "MEMBER", email := some email, member := none, team := some teamId
        status := some { status := "INVITED", reason := "Invited by " ++ interpolate alias_ } }
    update :=
      { role := some "MEMBER", email := some email, member := none, team := some teamId
        status := some { status := "INVITED",
                         reason := "Invite resent by " ++ interpolate alias_ } } }

/-- The resolver `Mutation.sendMemberInviteSG`.  The context is a parameter,
as in the source, although the body reads nothing of it but the store client. -/
def sendMemberInviteSG {σ : Type} (svc : Services) (db : Db σ) (_ctx : Ctx)
    (email : String) (teamId : Id) (w : World σ) : Promise String × World σ :=
  let rt := db.queryTeam w.store teamId
  let w1 : World σ := { store := rt.2, trace := w.trace ++ [Event.queryTeam teamId] }
  match rt.1 with
  | .pending => (.pending, w1)
  | .rejected e => (.rejected e, w1)
  | .resolved none => (.rejected (typeErrorReading "members"), w1)
  | .resolved (some team) =>
    match firstMemberAlias (some team) with
    | .error e => (.rejected e, w1)
    | .ok alias_ =>
      let args := inviteArgs email teamId alias_
      let ru := db.upsertTeamMembers w1.store args
      let w2 : World σ := { store := ru.2, trace := w1.trace ++ [Event.upsertTeamMembers args] }
      match ru.1 with
      | .pending => (.pending, w2)
      | .rejected e => (.rejected e, w2)
      | .resolved _ =>
        (svc.sendTeamMemberInvite email team, w2.log (Event.sendTeamMemberInvite email team))

/-! ## `verifyTeamInvite` (lines 139-156) -/

/-- The resolver `Mutation.verifyTeamInvite`. -/
def verifyTeamInvite {σ : Type} (svc : Services) (token : String) (w : World σ) :
    Promise TeamInvite × World σ :=
  let w1 := w.log (Event.verifyInviteToken token)
  match svc.verifyInviteToken token with
  | .pending => (.pending, w1)
  | .rejected err => (.rejected (newError err.message), w1)
  | .resolved none => (.rejected (newError (typeErrorReading "email").message), w1)
  | .resolved (some verifiedToken) =>
    (.resolved { email := verifiedToken.email, team := { slug := verifiedToken.team } }, w1)

/-! ## `getUser` (lines 247-284) -/

/-- The helper `getUser`.  Its promise is built with `new Promise(resolve => ...)`:
it is resolved with the response body when the request succeeds and with the
error when `axios.post` throws synchronously.  When the request is rejected
the `catch` callback throws inside the promise chain, where the surrounding
`try` does not reach, and nothing settles the promise. -/
def getUser {σ : Type} (svc : Services) (authId : String) (w : World σ) :
    Promise GetUserResult × World σ :=
  let w1 := w.log (Event.axiosPost authId)
  match svc.axiosPost authId with
  | .threw error => (.resolved (.error error), w1)
  | .returned (.resolved result) => (.resolved (.body result.data), w1)
  | .returned (.rejected _) => (.pending, w1)
  | .returned .pending => (.pending, w1)

/-! ## `createTeam` (lines 157-220) -/

/-- The template literal `encodedURL` of line 165, into which `authId` is
pasted as it is. -/
def encodedURL (authId : String) : String :=
  "https://users-api.advancedalgos.net/graphql?query=%7B%0A%20%20userByAuthId(authId:%20%22"
    ++ authId ++
    "%22)%20%7B%0A%20%20%20%20id%0A%20%20%20%20email%0A%20%20%20%20alias%0A%20%20%7D%0A%7D%0A"

/-- The constant `avatar` of line 174. -/
def avatar : String :=
  "https://aadevelop.blob.core.windows.net/module-teams/module-default/aa-avatar-default.png"

/-- The constant `banner` of line 175. -/
def banner : String :=
  "https://aadevelop.blob.core.windows.net/module-teams/module-default/aa-banner-default.png"

/-- Lines 172-173: `result.data.users_UserByAuthId.alias` and `.email`, with
the `TypeError` raised when `result.data` or the record is missing. -/
def readProfile : GetUserResult → Except JsError (Option String × Option String)
  | .error _ => .error (typeErrorReading "users_UserByAuthId")
  | .body b =>
    match b.data with
    | none => .error (typeErrorReading "users_UserByAuthId")
    | some d =>
      match d.users_UserByAuthId with
      | none => .error (typeErrorReading "alias")
      | some user => .ok (user.alias_, user.email)

/-- The `data` object of line 206. -/
def teamCreateData (args : CreateTeamArgs) (authId : String) (alias_ : Option String) :
    TeamCreateData :=
  { name := args.name
    slug := args.slug
    owner := authId
    members :=
      [{ member := some
           { authId := authId, alias_ := alias_, visible := "true"
             status := { status := "ACTIVE", reason := "Created team " ++ args.name } }
         role := some "OWNER"
         email := none, team := none, status := none }]
    profile := { avatar := avatar, banner := banner }
    fb :=
      { name := args.botName, slug := args.botSlug, kind := "TRADER", avatar := avatar
        status := { status := "ACTIVE", reason := "Cloned on team creation" } }
    status := { status := "ACTIVE", reason := "Team created" } }

/-- The resolver `Mutation.createTeam`.  Line 166 applies `decodeURI` to
`encodedURL` before the lookup; when it throws, the resolver is rejected with
nothing called.  The decoded string is not used. -/
def createTeam {σ : Type} (svc : Services) (db : Db σ) (ctx : Ctx) (args : CreateTeamArgs)
    (w : World σ) : Promise CreateTeamResult × World σ :=
  match ctx.request.user with
  | none => (.rejected (typeErrorReading "sub"), w)
  | some user =>
    let authId := user.sub
    match decodeURI (encodedURL authId) with
    | .error err => (.rejected err, w)
    | .ok _ =>
      let g := getUser svc authId w
      match g.1 with
      | .pending => (.pending, g.2)
      | .rejected err => (.resolved (.error err), g.2)
      | .resolved result =>
        match readProfile result with
        | .error err => (.resolved (.error err), g.2)
        | .ok profile =>
          let data := teamCreateData args authId profile.1
          let r := db.createTeam g.2.store data
          let w2 : World σ := { store := r.2, trace := g.2.trace ++ [Event.createTeam data] }
          match r.1 with
          | .pending => (.pending, w2)
          | .resolved team => (.resolved (.team team), w2)
          | .rejected err => (.resolved (.error err), w2)

/-! ## A reference store

The store client is injected through the context and its schema is generated
code that is not among the sources.  The properties that hold for every store
are stated over an arbitrary `Db`; the properties that depend on what the
store does with a member are stated over the reference store below. -/

/-- Modelled from the spec: a team row of the store (section 3). -/
structure TeamRow where
  id : Id
  name : String
  slug : String
  owner : String
deriving DecidableEq, Repr

/-- Modelled from the spec: a membership row of the store (section 3);
`member` is the `authId` of the member it is bound to. -/
structure TeamMembersRow where
  id : Id
  team : Option Id
  role : Option String
  status : Option String
  email : Option String
  member : Option String
deriving DecidableEq, Repr

/-- Modelled from the spec: the state of the Member/Team store of section 6,
whose schema is not among the sources.  It holds the entities of section 3:
members, teams, memberships, profiles and agents (each of the last two with
the id of its team), and the next fresh identifier. -/
structure Store where
  members : List Member
  teams : List TeamRow
  teamMembers : List TeamMembersRow
  profiles : List (Id × ProfileCreate)
  fbs : List (Id × FbCreate)
  nextId : Id
deriving DecidableEq, Repr

/-- Modelled from the spec: the error with which the store reports that a
unique key would be violated (section 6, item c). -/
def uniqueViolation (field : String) : JsError :=
  newError ("A unique constraint would be violated. Details: Field name = " ++ field)

/-- Modelled from the spec: point read of a member by `authId` (section 6, item d). -/
def Store.memberByAuthId (s : Store) (authId : String) : Option Member :=
  s.members.find? (fun m => decide (m.authId = authId))

/-- Modelled from the spec: the memberships of a team, each with the member
it is bound to, as the teams fragment returns them. -/
def Store.membersOf (s : Store) (teamId : Id) : List TeamMemberView :=
  (s.teamMembers.filter (fun r => decide (r.team = some teamId))).map fun r =>
    { role := r.role, status := r.status, email := r.email
      member := (r.member.bind s.memberByAuthId).map fun m =>
        { authId := m.authId, alias_ := m.alias_ } }

/-- Modelled from the spec: point read of a team by id (section 6, item d). -/
def Store.teamById (s : Store) (teamId : Id) : Option Team :=
  (s.teams.find? (fun t => decide (t.id = teamId))).map fun t =>
    { id := t.id, name := t.name, slug := t.slug, owner := t.owner
      members := s.membersOf t.id }

/-- Modelled from the spec: atomic upsert of a member by its unique key
`authId` (section 6, item a): the row found under the key gets the `update`
fields, and when there is none a row is created from the `create` fields. -/
def Store.upsertMember (s : Store) (args : UpsertMemberArgs) : Member × Store :=
  match s.memberByAuthId args.where_ with
  | some m =>
    let m2 : Member := { m with authId := args.update.authId, alias_ := args.update.alias_ }
    (m2, { s with members := s.members.map fun x =>
                    if x.authId = args.where_ then
                      { x with authId := args.update.authId, alias_ := args.update.alias_ }
                    else x })
  | none =>
    let m : Member :=
      { id := s.nextId, authId := args.create.authId, alias_ := args.create.alias_ }
    (m, { s with members := s.members ++ [m], nextId := s.nextId + 1 })

/-- Modelled from the spec: the membership row that a membership input describes. -/
def TeamMembersInput.toRow (m : TeamMembersInput) (id : Id) (team : Option Id) :
    TeamMembersRow :=
  { id := id, team := team, role := m.role, status := m.status.map (fun c => c.status)
    email := m.email, member := m.member.map (fun c => c.authId) }

/-- Modelled from the spec: upsert of a membership by `email`. -/
def Store.upsertTeamMembers (s : Store) (args : UpsertTeamMembersArgs) : Id × Store :=
  match s.teamMembers.find? (fun r => decide (r.email = some args.where_)) with
  | some r =>
    (r.id, { s with teamMembers := s.teamMembers.map fun x =>
                      if x.email = some args.where_ then args.update.toRow x.id args.update.team
                      else x })
  | none =>
    (s.nextId, { s with teamMembers := s.teamMembers ++ [args.create.toRow s.nextId args.create.team]
                        nextId := s.nextId + 1 })

/-- Modelled from the spec: one membership of a team aggregate is stored,
bound to the member created or resolved for its `authId` (section 4.5, step 2). -/
def Store.addMembership (teamId : Id) (s : Store) (m : TeamMembersInput) : Store :=
  let s1 : Store :=
    match m.member with
    | none => s
    | some c =>
      match s.memberByAuthId c.authId with
      | some _ => s
      | none =>
        { s with members := s.members ++ [{ id := s.nextId, authId := c.authId, alias_ := c.alias_ }]
                 nextId := s.nextId + 1 }
  { s1 with teamMembers := s1.teamMembers ++ [m.toRow s1.nextId (some teamId)]
            nextId := s1.nextId + 1 }

/-- Modelled from the spec: the all-or-nothing creation of a team aggregate
(section 6, item b).  A taken `slug` is reported as a unique-key violation and
nothing is written (section 3, invariant d); otherwise the team, its
memberships, its profile and its agent are all written. -/
def Store.createTeam (s : Store) (data : TeamCreateData) : Promise Team × Store :=
  if s.teams.any (fun t => decide (t.slug = data.slug)) then
    (.rejected (uniqueViolation "slug"), s)
  else
    let teamId := s.nextId
    let s1 : Store :=
      { s with teams := s.teams ++ [{ id := teamId, name := data.name, slug := data.slug
                                      owner := data.owner }]
               profiles := s.profiles ++ [(teamId, data.profile)]
               fbs := s.fbs ++ [(teamId, data.fb)]
               nextId := s.nextId + 1 }
    let s2 := data.members.foldl (Store.addMembership teamId) s1
    (.resolved { id := teamId, name := data.name, slug := data.slug, owner := data.owner
                 members := s2.membersOf teamId }, s2)

/-- Modelled from the spec: the store client over the reference store.  Every
read and every upsert succeeds. -/
def specDb : Db Store where
  queryMember s authId := (.resolved (s.memberByAuthId authId), s)
  queryTeam s teamId := (.resolved (s.teamById teamId), s)
  upsertMember s args := (.resolved (s.upsertMember args).1, (s.upsertMember args).2)
  upsertTeamMembers s args :=
    (.resolved (s.upsertTeamMembers args).1, (s.upsertTeamMembers args).2)
  createTeam s data := s.createTeam data

/-- The members stored under an `authId`. -/
def Store.membersWithAuthId (s : Store) (authId : String) : List Member :=
  s.members.filter (fun m => decide (m.authId = authId))

/-- In this state of the store `authId` is a unique key of the members. -/
def Store.UniqueAuthId (s : Store) : Prop :=
  (s.members.map (fun m => m.authId)).Nodup

/-! ## Notions of the specification -/

/-- The profile record that the External Identity Lookup delivers for
`authId`: present exactly when the remote request succeeds and its result
carries a `users_UserByAuthId` record. -/
def lookupRecord (svc : Services) (authId : String) : Option UserRecord :=
  match svc.axiosPost authId with
  | .returned (.resolved result) => result.data.data.bind (fun d => d.users_UserByAuthId)
  | _ => none

/-- The subject `authId` gets past line 166: the URL it is pasted into decodes. -/
def decodes (authId : String) : Bool :=
  match decodeURI (encodedURL authId) with
  | .ok _ => true
  | .error _ => false

/-- The requester `sub` holds an active membership with role OWNER or ADMIN
on the team (specification, section 4.6). -/
def holdsManagingMembership (team : Team) (sub : String) : Bool :=
  team.members.any fun m =>
    (decide (m.role = some "OWNER") || decide (m.role = some "ADMIN"))
      && decide (m.status = some "ACTIVE")
      && decide (m.member.map (fun x => x.authId) = some sub)

/-- A store enforces slug uniqueness with an all-or-nothing creation unit:
`slugs` lists the slugs taken in a state, a creation whose slug is taken is
rejected with `violation` and leaves the state as it was, a creation that is
rejected for any reason leaves the state as it was, and a creation that
succeeds takes its slug. -/
def EnforcesSlugUniqueness {σ : Type} (db : Db σ) (slugs : σ → List String)
    (violation : JsError) : Prop :=
  (∀ s data, data.slug ∈ slugs s → db.createTeam s data = (.rejected violation, s)) ∧
  (∀ s data e, (db.createTeam s data).1 = .rejected e → (db.createTeam s data).2 = s) ∧
  (∀ s data t, (db.createTeam s data).1 = .resolved t → data.slug ∈ slugs (db.createTeam s data).2)

/-- The member that `createMember` leaves under the subject of the token: it
keeps the id of the member found under the subject, or takes a fresh id when
there is none, and carries the nickname of the token as its alias. -/
def boundMember (s : Store) (idToken : IdToken) : Member :=
  { id := match s.memberByAuthId idToken.sub with
          | some m => m.id
          | none => s.nextId
    authId := idToken.sub
    alias_ := idToken.nickname }

/-! ## Example collaborators and worlds -/

/-- The profile record of the requester `auth0|owner`. -/
def aliceRecord : UserRecord :=
  { id := some "u1", alias_ := some "alice", email := some "alice@x.com" }

/-- A token verifier, an invite codec, a lookup service and an email
dispatcher that all succeed on the inputs of the scenarios of the
specification and fail elsewhere. -/
def demoServices : Services where
  validateIdToken t :=
    if t = "valid-token" then
      .resolved (some { sub := "auth0|123", nickname := some "nickname-from-token" })
    else if t = "expired-token" then .rejected { name := "TokenExpiredError", message := "jwt expired" }
    else .rejected { name := "JsonWebTokenError", message := "invalid signature" }
  verifyInviteToken t :=
    if t = "invite-bob" then .resolved (some { email := some "bob@x.com", team := some "acme" })
    else if t = "empty" then .resolved none
    else if t = "expired-invite" then
      .rejected { name := "TokenExpiredError", message := "jwt expired" }
    else .rejected { name := "JsonWebTokenError", message := "invalid signature" }
  axiosPost authId :=
    if authId = "auth0|owner" then
      .returned (.resolved { data := { data := some { users_UserByAuthId := some aliceRecord } } })
    else if authId = "auth0|unknown" then
      .returned (.resolved { data := { data := some { users_UserByAuthId := none } } })
    else .returned (.rejected (newError "Network Error"))
  sendTeamMemberInvite email _ :=
    if email = "bob@x.com" then .resolved "Accepted"
    else .rejected (newError "Bad Request")

/-- The empty reference store. -/
def emptyStore : Store :=
  { members := [], teams := [], teamMembers := [], profiles := [], fbs := [], nextId := 1 }

/-- The world before any call, over the empty reference store. -/
def emptyWorld : World Store :=
  { store := emptyStore, trace := [] }

/-- A reference store that holds one member whose alias is `custom`. -/
def customAliasStore : Store :=
  { members := [{ id := 1, authId := "auth0|123", alias_ := some "custom" }]
    teams := [], teamMembers := [], profiles := [], fbs := [], nextId := 2 }

/-- The context of a request made by `sub`. -/
def ctxOf (sub : String) : Ctx :=
  { request := { user := some { sub := sub } } }

/-- The arguments of the team `acme` with its agent `bot`. -/
def acmeArgs : CreateTeamArgs :=
  { name := "Acme", slug := "acme", botName := "Bot", botSlug := "bot" }

/-- A reference store that holds the team `acme` (id 2), owned by the member
`alice` through an active `OWNER` membership. -/
def acmeStore : Store :=
  { members := [{ id := 1, authId := "auth0|owner", alias_ := some "alice" }]
    teams := [{ id := 2, name := "Acme", slug := "acme", owner := "auth0|owner" }]
    teamMembers := [{ id := 3, team := some 2, role := some "OWNER", status := some "ACTIVE"
                      email := none, member := some "auth0|owner" }]
    profiles := [], fbs := [], nextId := 4 }

/-- The team `acme` as the reference store returns it. -/
def acmeTeam : Team :=
  { id := 2, name := "Acme", slug := "acme", owner := "auth0|owner"
    members := [{ role := some "OWNER", status := some "ACTIVE", email := none
                  member := some { authId := "auth0|owner", alias_ := some "alice" } }] }

/-- The world before any call, over the store that holds the team `acme`. -/
def acmeWorld : World Store :=
  { store := acmeStore, trace := [] }

/-- A token verifier and an invite codec that reject an expired token and a
forged token with errors of different kinds and the same message. -/
def terseServices : Services where
  validateIdToken t :=
    if t = "expired-token" then
      .rejected { name := "TokenExpiredError", message := "Unauthorized" }
    else .rejected { name := "JsonWebTokenError", message := "Unauthorized" }
  verifyInviteToken t :=
    if t = "expired-invite" then
      .rejected { name := "TokenExpiredError", message := "Unauthorized" }
    else .rejected { name := "JsonWebTokenError", message := "Unauthorized" }
  axiosPost _ := .returned .pending
  sendTeamMemberInvite _ _ := .pending

/-! ## Lemmas on the reference store -/

theorem membersWithAuthId_of_none (s : Store) (a : String)
    (h : s.memberByAuthId a = none) : s.membersWithAuthId a = [] := by
  unfold Store.memberByAuthId at h
  unfold Store.membersWithAuthId
  rw [List.find?_eq_none] at h
  rw [List.filter_eq_nil_iff]
  exact h

theorem filter_authId_length_of_nodup (l : List Member) (a : String)
    (hn : (l.map (fun m => m.authId)).Nodup) (hm : ∃ m ∈ l, m.authId = a) :
    (l.filter (fun m => decide (m.authId = a))).length = 1 := by
  induction l with
  | nil => simp at hm
  | cons x xs ih =>
    rw [List.map_cons, List.nodup_cons] at hn
    by_cases hx : x.authId = a
    · have hnil : xs.filter (fun m => decide (m.authId = a)) = [] := by
        rw [List.filter_eq_nil_iff]
        intro y hy
        simp only [decide_eq_true_eq]
        intro hya
        apply hn.1
        rw [hx, ← hya]
        exact List.mem_map_of_mem (fun m => m.authId) hy
      simp [List.filter_cons, hx, hnil]
    · have hm2 : ∃ m ∈ xs, m.authId = a := by
        obtain ⟨m, hmem, hma⟩ := hm
        rcases List.mem_cons.mp hmem with h | h
        · exact absurd (h ▸ hma) hx
        · exact ⟨m, h, hma⟩
      simp [List.filter_cons, hx, ih hn.2 hm2]

theorem membersWithAuthId_length_of_some (s : Store) (a : String) (m : Member)
    (hu : s.UniqueAuthId) (h : s.memberByAuthId a = some m) :
    (s.membersWithAuthId a).length = 1 := by
  unfold Store.memberByAuthId at h
  unfold Store.membersWithAuthId
  apply filter_authId_length_of_nodup _ _ hu
  refine ⟨m, List.mem_of_find?_eq_some h, ?_⟩
  have := List.find?_some h
  simpa using this

/-! ## `authenticate` and `createMember` over the reference store -/

theorem authenticate_present (svc : Services) (idToken : String) (tok : IdToken)
    (w : World Store) (m : Member) (hv : svc.validateIdToken idToken = .resolved (some tok))
    (hm : w.store.memberByAuthId tok.sub = some m) :
    authenticate svc specDb idToken w =
      (.resolved m, { store := w.store,
                      trace := w.trace ++ [Event.validateIdToken idToken, Event.queryMember tok.sub] }) := by
  simp [authenticate, hv, specDb, World.log, hm]

theorem authenticate_absent (svc : Services) (idToken : String) (tok : IdToken)
    (w : World Store) (hv : svc.validateIdToken idToken = .resolved (some tok))
    (hm : w.store.memberByAuthId tok.sub = none) :
    authenticate svc specDb idToken w =
      (.resolved { id := w.store.nextId, authId := tok.sub, alias_ := tok.nickname },
       { store := { w.store with
                    members := w.store.members ++
                      [{ id := w.store.nextId, authId := tok.sub, alias_ := tok.nickname }]
                    nextId := w.store.nextId + 1 },
         trace := w.trace ++ [Event.validateIdToken idToken, Event.queryMember tok.sub,
                    Event.upsertMember (createMemberArgs tok)] }) := by
  simp [authenticate, hv, specDb, World.log, hm, createMember, Store.upsertMember, createMemberArgs]

/-- C1: when `validateIdToken` accepts the token with subject `tok.sub` and
`authId` is a unique key of the members of the reference store, two
`authenticate` calls in sequence both resolve, with members of the same id
bound to that subject; when no member is stored under the subject the first
call writes it through the upsert of `createMember`; the second call issues no
store write; and afterwards the store holds exactly one member under that
subject. -/
theorem authenticate_twice_same_member (svc : Services) (idToken : String) (tok : IdToken)
    (w : World Store) (hv : svc.validateIdToken idToken = .resolved (some tok))
    (hu : w.store.UniqueAuthId) :
    ∃ m1 m2 : Member,
      (authenticate svc specDb idToken w).1 = .resolved m1 ∧
      (authenticate svc specDb idToken (authenticate svc specDb idToken w).2).1 = .resolved m2 ∧
      m1.id = m2.id ∧ m1.authId = tok.sub ∧ m2.authId = tok.sub ∧
      (w.store.memberByAuthId tok.sub = none →
        (w.since (authenticate svc specDb idToken w).2).filter Event.isStoreWrite =
          [Event.upsertMember (createMemberArgs tok)]) ∧
      (((authenticate svc specDb idToken w).2.since
          (authenticate svc specDb idToken (authenticate svc specDb idToken w).2).2).filter
        Event.isStoreWrite = []) ∧
      ((authenticate svc specDb idToken
          (authenticate svc specDb idToken w).2).2.store.membersWithAuthId tok.sub).length = 1 := by
  cases hm : w.store.memberByAuthId tok.sub with
  | some m =>
    have h1 := authenticate_present svc idToken tok w m hv hm
    have h2 := authenticate_present svc idToken tok (authenticate svc specDb idToken w).2 m hv
      (by rw [h1]; exact hm)
    have hauth : m.authId = tok.sub := by
      have := List.find?_some hm
      simpa using this
    refine ⟨m, m, ?_, ?_, rfl, hauth, hauth, ?_, ?_, ?_⟩
    · rw [h1]
    · rw [h2]
    · intro hnone
      exact absurd hnone (by simp)
    · rw [h2, h1]
      simp [World.since, Event.isStoreWrite]
    · rw [h2, h1]
      exact membersWithAuthId_length_of_some w.store tok.sub m hu hm
  | none =>
    have h1 := authenticate_absent svc idToken tok w hv hm
    have hfind : (authenticate svc specDb idToken w).2.store.memberByAuthId tok.sub =
        some { id := w.store.nextId, authId := tok.sub, alias_ := tok.nickname } := by
      rw [h1]
      unfold Store.memberByAuthId at hm ⊢
      simp [List.find?_append, hm]
    have h2 := authenticate_present svc idToken tok (authenticate svc specDb idToken w).2 _ hv hfind
    refine ⟨{ id := w.store.nextId, authId := tok.sub, alias_ := tok.nickname },
      { id := w.store.nextId, authId := tok.sub, alias_ := tok.nickname },
      ?_, ?_, rfl, rfl, rfl, ?_, ?_, ?_⟩
    · rw [h1]
    · rw [h2]
    · intro _
      rw [h1]
      simp [World.since, Event.isStoreWrite]
    · rw [h2, h1]
      simp [World.since, Event.isStoreWrite]
    · rw [h2, h1]
      have hnil := membersWithAuthId_of_none w.store tok.sub hm
      unfold Store.membersWithAuthId at hnil ⊢
      simp [List.filter_append, hnil]

/-- C1, at the scenario of the specification: subject `auth0|123` on the
empty reference store. -/
theorem authenticate_twice_same_member_witness :
    ∃ m1 m2 : Member,
      (authenticate demoServices specDb "valid-token" emptyWorld).1 = .resolved m1 ∧
      (authenticate demoServices specDb "valid-token"
        (authenticate demoServices specDb "valid-token" emptyWorld).2).1 = .resolved m2 ∧
      m1.id = m2.id ∧ m1.authId = "auth0|123" ∧ m2.authId = "auth0|123" ∧
      (emptyWorld.store.memberByAuthId "auth0|123" = none →
        (emptyWorld.since (authenticate demoServices specDb "valid-token" emptyWorld).2).filter
            Event.isStoreWrite =
          [Event.upsertMember
            (createMemberArgs { sub := "auth0|123", nickname := some "nickname-from-token" })]) ∧
      (((authenticate demoServices specDb "valid-token" emptyWorld).2.since
          (authenticate demoServices specDb "valid-token"
            (authenticate demoServices specDb "valid-token" emptyWorld).2).2).filter
        Event.isStoreWrite = []) ∧
      ((authenticate demoServices specDb "valid-token"
          (authenticate demoServices specDb "valid-token"
            emptyWorld).2).2.store.membersWithAuthId "auth0|123").length = 1 :=
  authenticate_twice_same_member demoServices "valid-token"
    { sub := "auth0|123", nickname := some "nickname-from-token" } emptyWorld
    (by simp [demoServices])
    (by simp [Store.UniqueAuthId, emptyWorld, emptyStore])

/-- C6, refuted at a concrete input: the store holds a member under
`auth0|123` whose alias is `custom`, the nickname of the token differs, and
after `createMember` the stored alias is the nickname. -/
theorem createMember_overwrites_custom_alias :
    customAliasStore.memberByAuthId "auth0|123" =
        some { id := 1, authId := "auth0|123", alias_ := some "custom" } ∧
      (createMember specDb { sub := "auth0|123", nickname := some "nickname-from-token" }
          { store := customAliasStore, trace := [] }).2.store.memberByAuthId "auth0|123" =
        some { id := 1, authId := "auth0|123", alias_ := some "nickname-from-token" } ∧
      (some "nickname-from-token" : Option String) ≠ some "custom" := by
  refine ⟨by decide, by decide, by decide⟩

/-- C6, amended: over the reference store `createMember` resolves with the
member bound to the subject of the token, whose alias is the nickname of the
token whether or not a member was stored under the subject before (an alias
already stored is overwritten, the id is kept), that member is the one stored
under the subject afterwards, and a row is added only when the subject was
absent. -/
theorem createMember_sets_alias (idToken : IdToken) (w : World Store) :
    (createMember specDb idToken w).1 = .resolved (boundMember w.store idToken) ∧
      (createMember specDb idToken w).2.store.memberByAuthId idToken.sub =
        some (boundMember w.store idToken) ∧
      (createMember specDb idToken w).2.store.members.length =
        w.store.members.length +
          (if (w.store.memberByAuthId idToken.sub).isSome then 0 else 1) := by
  cases hm : w.store.memberByAuthId idToken.sub with
  | some m =>
    refine ⟨?_, ?_, ?_⟩
    · simp [createMember, specDb, Store.upsertMember, createMemberArgs, hm, boundMember]
    · have hp : List.find? (fun x => decide (x.authId = idToken.sub)) w.store.members = some m := hm
      simp only [createMember, specDb, Store.upsertMember, createMemberArgs, boundMember,
        Store.memberByAuthId, hp, List.find?_map]
      have hcomp : ((fun x : Member => decide (x.authId = idToken.sub)) ∘ fun x : Member =>
          if x.authId = idToken.sub then
            { x with authId := idToken.sub, alias_ := idToken.nickname }
          else x) = fun x => decide (x.authId = idToken.sub) := by
        funext x
        by_cases hx : x.authId = idToken.sub <;> simp [hx]
      rw [hcomp, hp]
      have hauth : m.authId = idToken.sub := by
        have := List.find?_some hp
        simpa using this
      simp [hauth]
    · simp [createMember, specDb, Store.upsertMember, createMemberArgs, hm]
  | none =>
    refine ⟨?_, ?_, ?_⟩
    · simp [createMember, specDb, Store.upsertMember, createMemberArgs, hm, boundMember]
    · have hp : List.find? (fun x => decide (x.authId = idToken.sub)) w.store.members = none := hm
      simp [createMember, specDb, Store.upsertMember, createMemberArgs, hm, boundMember,
        Store.memberByAuthId, List.find?_append, hp]
    · simp [createMember, specDb, Store.upsertMember, createMemberArgs, hm]

/-! ## `createTeam` over an arbitrary store -/

theorem since_append {σ : Type} (w : World σ) (s : σ) (l : List Event) :
    w.since { store := s, trace := w.trace ++ l } = l := by
  simp [World.since]

theorem since_log {σ : Type} (w : World σ) (e : Event) : w.since (w.log e) = [e] := by
  simp [World.since, World.log]

theorem decodeURI_of_decodes (a : String) (h : decodes a = true) :
    ∃ u, decodeURI (encodedURL a) = .ok u := by
  unfold decodes at h
  cases hd : decodeURI (encodedURL a) with
  | ok u => exact ⟨u, rfl⟩
  | error e =>
    rw [hd] at h
    simp at h

theorem decodeURI_of_not_decodes (a : String) (h : decodes a = false) :
    decodeURI (encodedURL a) = .error uriError := by
  unfold decodes at h
  unfold decodeURI at h ⊢
  cases hb : (uriTokens (encodedURL a).toList).bind (decodeTokens 0 0 0 0) with
  | none => rfl
  | some cs =>
    rw [hb] at h
    simp at h

set_option maxRecDepth 100000 in
theorem decodes_owner : decodes "auth0|owner" = true := by
  decide

set_option maxRecDepth 100000 in
theorem decodes_unknown : decodes "auth0|unknown" = true := by
  decide

set_option maxRecDepth 100000 in
theorem decodes_malformed : decodes "auth0|50%" = false := by
  decide

/-- With a profile record delivered, `createTeam` issues the lookup, then one
`createTeam` call to the store, and turns the result of that call into its own. -/
theorem createTeam_of_record {σ : Type} (svc : Services) (db : Db σ) (ctx : Ctx)
    (args : CreateTeamArgs) (w : World σ) (user : RequestUser) (record : UserRecord)
    (hu : ctx.request.user = some user) (hdec : decodes user.sub = true)
    (hr : lookupRecord svc user.sub = some record) :
    createTeam svc db ctx args w =
      ((match (db.createTeam w.store (teamCreateData args user.sub record.alias_)).1 with
        | .pending => .pending
        | .resolved team => .resolved (.team team)
        | .rejected err => .resolved (.error err)),
       { store := (db.createTeam w.store (teamCreateData args user.sub record.alias_)).2
         trace := w.trace ++ [Event.axiosPost user.sub,
           Event.createTeam (teamCreateData args user.sub record.alias_)] }) := by
  obtain ⟨u, hdu⟩ := decodeURI_of_decodes user.sub hdec
  unfold lookupRecord at hr
  cases hp : svc.axiosPost user.sub with
  | threw e => simp [hp] at hr
  | returned p =>
    cases p with
    | pending => simp [hp] at hr
    | rejected e => simp [hp] at hr
    | resolved result =>
      rw [hp] at hr
      simp only at hr
      cases hd : result.data.data with
      | none => simp [hd] at hr
      | some d =>
        rw [hd] at hr
        simp only [Option.some_bind] at hr
        have hg : getUser svc user.sub w =
            (.resolved (.body result.data), w.log (Event.axiosPost user.sub)) := by
          simp [getUser, hp]
        simp only [createTeam, hu, hdu, hg, readProfile, hd, hr, World.log]
        cases (db.createTeam w.store (teamCreateData args user.sub record.alias_)).1 <;> simp

/-- Without a profile record, `createTeam` issues the lookup and nothing else,
and it either never settles or resolves with an error object. -/
theorem createTeam_of_no_record {σ : Type} (svc : Services) (db : Db σ) (ctx : Ctx)
    (args : CreateTeamArgs) (w : World σ) (user : RequestUser)
    (hu : ctx.request.user = some user) (hdec : decodes user.sub = true)
    (hr : lookupRecord svc user.sub = none) :
    (createTeam svc db ctx args w).2 = w.log (Event.axiosPost user.sub) ∧
      ((createTeam svc db ctx args w).1 = .pending ∨
        ∃ e, (createTeam svc db ctx args w).1 = .resolved (.error e)) := by
  obtain ⟨u, hdu⟩ := decodeURI_of_decodes user.sub hdec
  unfold lookupRecord at hr
  cases hp : svc.axiosPost user.sub with
  | threw e =>
    have hg : getUser svc user.sub w =
        (.resolved (.error e), w.log (Event.axiosPost user.sub)) := by
      simp [getUser, hp]
    simp [createTeam, hu, hdu, hg, readProfile]
  | returned p =>
    cases p with
    | pending =>
      have hg : getUser svc user.sub w = (.pending, w.log (Event.axiosPost user.sub)) := by
        simp [getUser, hp]
      simp [createTeam, hu, hdu, hg]
    | rejected e =>
      have hg : getUser svc user.sub w = (.pending, w.log (Event.axiosPost user.sub)) := by
        simp [getUser, hp]
      simp [createTeam, hu, hdu, hg]
    | resolved result =>
      rw [hp] at hr
      simp only at hr
      have hg : getUser svc user.sub w =
          (.resolved (.body result.data), w.log (Event.axiosPost user.sub)) := by
        simp [getUser, hp]
      cases hd : result.data.data with
      | none => simp [createTeam, hu, hdu, hg, readProfile, hd]
      | some d =>
        rw [hd] at hr
        simp only [Option.some_bind] at hr
        simp [createTeam, hu, hdu, hg, readProfile, hd, hr]

/-- When the subject does not get past `decodeURI` (line 166), `createTeam`
is rejected with the `URIError` and nothing is called. -/
theorem createTeam_of_malformed {σ : Type} (svc : Services) (db : Db σ) (ctx : Ctx)
    (args : CreateTeamArgs) (w : World σ) (user : RequestUser)
    (hu : ctx.request.user = some user) (hdec : decodes user.sub = false) :
    createTeam svc db ctx args w = (.rejected uriError, w) := by
  simp [createTeam, hu, decodeURI_of_not_decodes user.sub hdec]

/-- The subject `auth0|50%` ends in a malformed percent sequence: `createTeam`
is rejected with the `URIError`, with no lookup and no store call. -/
theorem createTeam_at_malformed_sub :
    createTeam demoServices specDb (ctxOf "auth0|50%") acmeArgs emptyWorld =
      (.rejected uriError, emptyWorld) :=
  createTeam_of_malformed demoServices specDb (ctxOf "auth0|50%") acmeArgs emptyWorld
    { sub := "auth0|50%" } rfl decodes_malformed

/-- C2: when the External Identity Lookup delivers no profile record (the
request fails, or its result carries no `users_UserByAuthId` record),
`createTeam` issues no store write and leaves the store as it was; and every
`createTeam` call to the store is preceded, in the same invocation, by a
lookup that delivered a record, from which the alias of the payload was read. -/
theorem createTeam_writes_only_after_lookup {σ : Type} (svc : Services) (db : Db σ) (ctx : Ctx)
    (args : CreateTeamArgs) (w : World σ) :
    ((∀ user, ctx.request.user = some user → lookupRecord svc user.sub = none) →
        (createTeam svc db ctx args w).2.store = w.store ∧
        (w.since (createTeam svc db ctx args w).2).filter Event.isStoreWrite = []) ∧
      (∀ data, Event.createTeam data ∈ w.since (createTeam svc db ctx args w).2 →
        ∃ user record, ctx.request.user = some user ∧
          lookupRecord svc user.sub = some record ∧
          data = teamCreateData args user.sub record.alias_ ∧
          w.since (createTeam svc db ctx args w).2 =
            [Event.axiosPost user.sub, Event.createTeam data]) := by
  cases hu : ctx.request.user with
  | none =>
    have h0 : createTeam svc db ctx args w = (.rejected (typeErrorReading "sub"), w) := by
      simp [createTeam, hu]
    rw [h0]
    simp [World.since]
  | some user =>
    cases hdec : decodes user.sub with
    | false =>
      rw [createTeam_of_malformed svc db ctx args w user hu hdec]
      simp [World.since]
    | true =>
      cases hr : lookupRecord svc user.sub with
      | none =>
        have h := (createTeam_of_no_record svc db ctx args w user hu hdec hr).1
        rw [h, since_log]
        simp [World.log, Event.isStoreWrite]
      | some record =>
        have h := createTeam_of_record svc db ctx args w user record hu hdec hr
        rw [h, since_append]
        constructor
        · intro hall
          have := hall user rfl
          rw [hr] at this
          exact absurd this (by simp)
        · intro data hmem
          simp only [List.mem_cons, List.mem_singleton, Event.createTeam.injEq, reduceCtorEq,
            false_or, List.not_mem_nil, or_false] at hmem
          exact ⟨user, record, rfl, hr, hmem, by rw [hmem]⟩

/-- C2, at a requester whose lookup request is rejected: no store write, and
the store is as it was. -/
theorem createTeam_writes_only_after_lookup_witness :
    (createTeam demoServices specDb (ctxOf "auth0|offline") acmeArgs emptyWorld).2.store =
        emptyWorld.store ∧
      (emptyWorld.since
          (createTeam demoServices specDb (ctxOf "auth0|offline") acmeArgs emptyWorld).2).filter
        Event.isStoreWrite = [] :=
  (createTeam_writes_only_after_lookup demoServices specDb (ctxOf "auth0|offline") acmeArgs
      emptyWorld).1
    (by
      intro user hu
      simp only [ctxOf, Option.some.injEq] at hu
      subst hu
      simp [lookupRecord, demoServices])

/-- C4, refuted at a concrete input: the one store mutation that `createTeam`
submits for the requester `auth0|owner` carries one membership, and that
membership has no status of its own (the status `ACTIVE` of the payload
belongs to the nested member). -/
theorem createTeam_membership_has_no_status :
    ∃ data : TeamCreateData,
      (emptyWorld.since
          (createTeam demoServices specDb (ctxOf "auth0|owner") acmeArgs emptyWorld).2).filter
        Event.isStoreWrite = [Event.createTeam data] ∧
      data.members.map (fun m => m.status) = [none] ∧
      data.members.map (fun m => m.member.map (fun c => c.status.status)) = [some "ACTIVE"] := by
  refine ⟨teamCreateData acmeArgs "auth0|owner" (some "alice"), ?_, rfl, rfl⟩
  have h := createTeam_of_record demoServices specDb (ctxOf "auth0|owner") acmeArgs emptyWorld
    { sub := "auth0|owner" } aliceRecord rfl decodes_owner (by simp [lookupRecord, demoServices])
  rw [h, since_append]
  simp [Event.isStoreWrite, aliceRecord]

/-- C4, amended: for a requester `a` that gets past `decodeURI` (line 166) and
whose lookup delivers a record with alias `al`, `createTeam` submits exactly
one store mutation, a single `createTeam`
call, after the lookup.  Its payload has the given name and slug and owner
`a`; exactly one membership, with role `OWNER` and no status of its own, bound
to a member to be created with `authId = a`, alias `al`, `visible` true and
status `ACTIVE`; a profile with the default avatar and banner; one agent with
the given bot name and slug, kind `TRADER` and status `ACTIVE`; and team
status `ACTIVE`. -/
theorem createTeam_payload {σ : Type} (svc : Services) (db : Db σ) (ctx : Ctx)
    (args : CreateTeamArgs) (w : World σ) (a al : String) (record : UserRecord)
    (hu : ctx.request.user = some { sub := a }) (hdec : decodes a = true)
    (hr : lookupRecord svc a = some record) (hal : record.alias_ = some al) :
    ∃ (data : TeamCreateData) (m : TeamMembersInput) (c : MemberCreate),
      w.since (createTeam svc db ctx args w).2 = [Event.axiosPost a, Event.createTeam data] ∧
      (w.since (createTeam svc db ctx args w).2).filter Event.isStoreWrite =
        [Event.createTeam data] ∧
      data.name = args.name ∧ data.slug = args.slug ∧ data.owner = a ∧
      data.members = [m] ∧ m.role = some "OWNER" ∧ m.status = none ∧ m.email = none ∧
      m.team = none ∧ m.member = some c ∧
      c.authId = a ∧ c.alias_ = some al ∧ c.visible = "true" ∧ c.status.status = "ACTIVE" ∧
      data.profile.avatar =
        "https://aadevelop.blob.core.windows.net/module-teams/module-default/aa-avatar-default.png" ∧
      data.profile.banner =
        "https://aadevelop.blob.core.windows.net/module-teams/module-default/aa-banner-default.png" ∧
      data.fb.name = args.botName ∧ data.fb.slug = args.botSlug ∧ data.fb.kind = "TRADER" ∧
      data.fb.status.status = "ACTIVE" ∧ data.status.status = "ACTIVE" := by
  have h := createTeam_of_record svc db ctx args w { sub := a } record hu hdec hr
  refine ⟨teamCreateData args a (some al), _, _, ?_, ?_, rfl, rfl, rfl, rfl, rfl, rfl, rfl, rfl,
    rfl, rfl, rfl, rfl, rfl, rfl, rfl, rfl, rfl, rfl, rfl, rfl⟩
  · rw [h, since_append, hal]
  · rw [h, since_append, hal]
    simp [Event.isStoreWrite]

/-- C4 (amended), at the requester `auth0|owner`, whose alias is `alice`. -/
theorem createTeam_payload_witness :
    ∃ (data : TeamCreateData) (m : TeamMembersInput) (c : MemberCreate),
      emptyWorld.since
          (createTeam demoServices specDb (ctxOf "auth0|owner") acmeArgs emptyWorld).2 =
        [Event.axiosPost "auth0|owner", Event.createTeam data] ∧
      (emptyWorld.since
          (createTeam demoServices specDb (ctxOf "auth0|owner") acmeArgs emptyWorld).2).filter
        Event.isStoreWrite = [Event.createTeam data] ∧
      data.name = acmeArgs.name ∧ data.slug = acmeArgs.slug ∧ data.owner = "auth0|owner" ∧
      data.members = [m] ∧ m.role = some "OWNER" ∧ m.status = none ∧ m.email = none ∧
      m.team = none ∧ m.member = some c ∧
      c.authId = "auth0|owner" ∧ c.alias_ = some "alice" ∧ c.visible = "true" ∧
      c.status.status = "ACTIVE" ∧
      data.profile.avatar =
        "https://aadevelop.blob.core.windows.net/module-teams/module-default/aa-avatar-default.png" ∧
      data.profile.banner =
        "https://aadevelop.blob.core.windows.net/module-teams/module-default/aa-banner-default.png" ∧
      data.fb.name = acmeArgs.botName ∧ data.fb.slug = acmeArgs.botSlug ∧
      data.fb.kind = "TRADER" ∧ data.fb.status.status = "ACTIVE" ∧
      data.status.status = "ACTIVE" :=
  createTeam_payload demoServices specDb (ctxOf "auth0|owner") acmeArgs emptyWorld
    "auth0|owner" "alice" aliceRecord rfl decodes_owner (by simp [lookupRecord, demoServices])
    rfl

/-- When the lookup request is rejected the promise of `getUser` is never
settled, so `createTeam`, once past line 166, never settles either. -/
theorem createTeam_pending_of_rejected_request {σ : Type} (svc : Services) (db : Db σ)
    (ctx : Ctx) (args : CreateTeamArgs) (w : World σ) (user : RequestUser) (err : JsError)
    (hu : ctx.request.user = some user) (hdec : decodes user.sub = true)
    (hp : svc.axiosPost user.sub = .returned (.rejected err)) :
    (createTeam svc db ctx args w).1 = .pending := by
  obtain ⟨u, hdu⟩ := decodeURI_of_decodes user.sub hdec
  have hg : getUser svc user.sub w = (.pending, w.log (Event.axiosPost user.sub)) := by
    simp [getUser, hp]
  simp [createTeam, hu, hdu, hg]

/-- C5, refuted at a concrete input: the lookup response for `auth0|unknown`
carries no user record, and `createTeam` resolves with an error object as its
payload instead of failing. -/
theorem createTeam_resolves_with_error_object :
    lookupRecord demoServices "auth0|unknown" = none ∧
      (createTeam demoServices specDb (ctxOf "auth0|unknown") acmeArgs emptyWorld).1 =
        .resolved (.error (typeErrorReading "alias")) := by
  constructor
  · simp [lookupRecord, demoServices]
  · have hg : getUser demoServices "auth0|unknown" emptyWorld =
        (.resolved (.body { data := some { users_UserByAuthId := none } }),
          emptyWorld.log (Event.axiosPost "auth0|unknown")) := by
      simp [getUser, demoServices]
    obtain ⟨u, hdu⟩ := decodeURI_of_decodes "auth0|unknown" decodes_unknown
    simp [createTeam, ctxOf, hdu, hg, readProfile]

/-- C5, amended: for a requester that gets past `decodeURI` (line 166), when
the lookup request succeeds but its response lacks the requested user record,
`createTeam` settles: it resolves, with a `TypeError`
object as its payload, and it issues no store write. -/
theorem createTeam_of_missing_record {σ : Type} (svc : Services) (db : Db σ) (ctx : Ctx)
    (args : CreateTeamArgs) (w : World σ) (user : RequestUser) (result : AxiosResponse)
    (hu : ctx.request.user = some user) (hdec : decodes user.sub = true)
    (hp : svc.axiosPost user.sub = .returned (.resolved result))
    (hr : result.data.data.bind (fun d => d.users_UserByAuthId) = none) :
    (∃ e : JsError, (createTeam svc db ctx args w).1 = .resolved (.error e) ∧
        e.name = "TypeError") ∧
      (createTeam svc db ctx args w).2.store = w.store ∧
      (w.since (createTeam svc db ctx args w).2).filter Event.isStoreWrite = [] := by
  obtain ⟨u, hdu⟩ := decodeURI_of_decodes user.sub hdec
  have hg : getUser svc user.sub w =
      (.resolved (.body result.data), w.log (Event.axiosPost user.sub)) := by
    simp [getUser, hp]
  cases hd : result.data.data with
  | none =>
    simp [createTeam, hu, hdu, hg, readProfile, hd, typeErrorReading, World.log, World.since,
      Event.isStoreWrite]
  | some d =>
    rw [hd] at hr
    simp only [Option.some_bind] at hr
    simp [createTeam, hu, hdu, hg, readProfile, hd, hr, typeErrorReading, World.log,
      World.since, Event.isStoreWrite]

/-- C5 (amended), at the requester `auth0|unknown`. -/
theorem createTeam_of_missing_record_witness :
    (∃ e : JsError,
        (createTeam demoServices specDb (ctxOf "auth0|unknown") acmeArgs emptyWorld).1 =
          .resolved (.error e) ∧ e.name = "TypeError") ∧
      (createTeam demoServices specDb (ctxOf "auth0|unknown") acmeArgs emptyWorld).2.store =
        emptyWorld.store ∧
      (emptyWorld.since
          (createTeam demoServices specDb (ctxOf "auth0|unknown") acmeArgs emptyWorld).2).filter
        Event.isStoreWrite = [] :=
  createTeam_of_missing_record demoServices specDb (ctxOf "auth0|unknown") acmeArgs emptyWorld
    { sub := "auth0|unknown" } { data := { data := some { users_UserByAuthId := none } } }
    rfl decodes_unknown (by simp [demoServices]) rfl

theorem addMembership_teams (teamId : Id) (s : Store) (m : TeamMembersInput) :
    (Store.addMembership teamId s m).teams = s.teams := by
  unfold Store.addMembership
  cases m.member with
  | none => rfl
  | some c =>
    simp only
    cases s.memberByAuthId c.authId <;> rfl

theorem foldl_addMembership_teams (teamId : Id) (l : List TeamMembersInput) (s : Store) :
    (l.foldl (Store.addMembership teamId) s).teams = s.teams := by
  induction l generalizing s with
  | nil => rfl
  | cons m ms ih => rw [List.foldl_cons, ih, addMembership_teams]

/-- The reference store enforces slug uniqueness with an all-or-nothing
creation unit. -/
theorem specDb_enforcesSlugUniqueness :
    EnforcesSlugUniqueness specDb (fun s => s.teams.map (fun t => t.slug))
      (uniqueViolation "slug") := by
  refine ⟨?_, ?_, ?_⟩
  · intro s data hmem
    have hany : s.teams.any (fun t => decide (t.slug = data.slug)) = true := by
      rw [List.any_eq_true]
      obtain ⟨t, ht, hts⟩ := List.mem_map.mp hmem
      exact ⟨t, ht, by simp [hts]⟩
    show s.createTeam data = _
    unfold Store.createTeam
    rw [if_pos hany]
  · intro s data e h
    show (s.createTeam data).2 = s
    change (s.createTeam data).1 = _ at h
    unfold Store.createTeam at h ⊢
    by_cases hany : s.teams.any (fun t => decide (t.slug = data.slug)) = true
    · rw [if_pos hany]
    · rw [if_neg hany] at h
      simp at h
  · intro s data t _
    show data.slug ∈ List.map (fun t => t.slug) (s.createTeam data).2.teams
    unfold Store.createTeam
    by_cases hany : s.teams.any (fun t => decide (t.slug = data.slug)) = true
    · rw [if_pos hany]
      rw [List.any_eq_true] at hany
      obtain ⟨x, hx, hxs⟩ := hany
      exact List.mem_map.mpr ⟨x, hx, by simpa using hxs⟩
    · rw [if_neg hany]
      simp only [foldl_addMembership_teams]
      simp

/-- C3, refuted at a concrete input: two `createTeam` invocations with the
slug `acme` on the reference store, both with a successful lookup.  The first
resolves with the team; the second does not fail: it resolves, with the error
object of the store as its payload. -/
theorem createTeam_same_slug_resolves_with_error :
    (∃ t, (createTeam demoServices specDb (ctxOf "auth0|owner") acmeArgs emptyWorld).1 =
        .resolved (.team t)) ∧
      (createTeam demoServices specDb (ctxOf "auth0|owner") acmeArgs
          (createTeam demoServices specDb (ctxOf "auth0|owner") acmeArgs emptyWorld).2).1 =
        .resolved (.error (uniqueViolation "slug")) := by
  have hr : lookupRecord demoServices "auth0|owner" = some aliceRecord := by
    simp [lookupRecord, demoServices]
  have h1 := createTeam_of_record demoServices specDb (ctxOf "auth0|owner") acmeArgs emptyWorld
    { sub := "auth0|owner" } aliceRecord rfl decodes_owner hr
  have h2 := createTeam_of_record demoServices specDb (ctxOf "auth0|owner") acmeArgs
    (createTeam demoServices specDb (ctxOf "auth0|owner") acmeArgs emptyWorld).2
    { sub := "auth0|owner" } aliceRecord rfl decodes_owner hr
  constructor
  · rw [h1]
    exact ⟨_, rfl⟩
  · rw [h2, h1]
    rfl

/-- C3, amended: over a store that enforces slug uniqueness with an
all-or-nothing creation unit, take two `createTeam` invocations in sequence
with the same slug, both by a requester that gets past `decodeURI` (line 166)
and both with a successful lookup, the first of which resolves with its team.  The second resolves too (it does not fail): its payload is the
uniqueness error of the store, unchanged, and the store is left as the first
invocation left it, with no row of the rejected attempt.  Any error with which
the store rejects the creation becomes the payload in the same way, so a taken
slug differs from another write failure exactly as the errors of the store do. -/
theorem createTeam_same_slug {σ : Type} (svc : Services) (db : Db σ)
    (slugs : σ → List String) (violation : JsError) (ctx1 ctx2 : Ctx)
    (args1 args2 : CreateTeamArgs) (w : World σ) (u1 u2 : RequestUser)
    (record1 record2 : UserRecord) (t : Team)
    (hdb : EnforcesSlugUniqueness db slugs violation)
    (hu1 : ctx1.request.user = some u1) (hu2 : ctx2.request.user = some u2)
    (hdec1 : decodes u1.sub = true) (hdec2 : decodes u2.sub = true)
    (hr1 : lookupRecord svc u1.sub = some record1)
    (hr2 : lookupRecord svc u2.sub = some record2)
    (hslug : args1.slug = args2.slug)
    (h1 : (createTeam svc db ctx1 args1 w).1 = .resolved (.team t)) :
    (createTeam svc db ctx2 args2 (createTeam svc db ctx1 args1 w).2).1 =
        .resolved (.error violation) ∧
      (createTeam svc db ctx2 args2 (createTeam svc db ctx1 args1 w).2).2.store =
        (createTeam svc db ctx1 args1 w).2.store ∧
      (∀ (w2 : World σ) (e : JsError),
        (db.createTeam w2.store (teamCreateData args2 u2.sub record2.alias_)).1 = .rejected e →
          (createTeam svc db ctx2 args2 w2).1 = .resolved (.error e) ∧
          ∀ e2 : JsError, e2 ≠ e →
            (createTeam svc db ctx2 args2 w2).1 ≠ .resolved (.error e2)) := by
  have e1 := createTeam_of_record svc db ctx1 args1 w u1 record1 hu1 hdec1 hr1
  have htaken : args2.slug ∈ slugs (createTeam svc db ctx1 args1 w).2.store := by
    rw [e1] at h1 ⊢
    simp only at h1 ⊢
    cases hd : (db.createTeam w.store (teamCreateData args1 u1.sub record1.alias_)).1 with
    | pending => rw [hd] at h1; simp at h1
    | rejected e => rw [hd] at h1; simp at h1
    | resolved t1 =>
      have := hdb.2.2 w.store (teamCreateData args1 u1.sub record1.alias_) t1 hd
      rw [← hslug]
      exact this
  have hrej := hdb.1 (createTeam svc db ctx1 args1 w).2.store
    (teamCreateData args2 u2.sub record2.alias_) htaken
  refine ⟨?_, ?_, ?_⟩
  · rw [createTeam_of_record svc db ctx2 args2 _ u2 record2 hu2 hdec2 hr2, hrej]
  · rw [createTeam_of_record svc db ctx2 args2 _ u2 record2 hu2 hdec2 hr2, hrej]
  · intro w2 e he
    rw [createTeam_of_record svc db ctx2 args2 w2 u2 record2 hu2 hdec2 hr2, he]
    refine ⟨rfl, ?_⟩
    intro e2 hne h
    simp only [Promise.resolved.injEq, CreateTeamResult.error.injEq] at h
    exact hne h.symm

/-- C3 (amended), at the two invocations for the slug `acme` on the reference store. -/
theorem createTeam_same_slug_witness :
    (createTeam demoServices specDb (ctxOf "auth0|owner") acmeArgs
          (createTeam demoServices specDb (ctxOf "auth0|owner") acmeArgs emptyWorld).2).1 =
        .resolved (.error (uniqueViolation "slug")) ∧
      (createTeam demoServices specDb (ctxOf "auth0|owner") acmeArgs
          (createTeam demoServices specDb (ctxOf "auth0|owner") acmeArgs emptyWorld).2).2.store =
        (createTeam demoServices specDb (ctxOf "auth0|owner") acmeArgs emptyWorld).2.store :=
  have h := createTeam_same_slug demoServices specDb (fun s => s.teams.map (fun t => t.slug))
    (uniqueViolation "slug") (ctxOf "auth0|owner") (ctxOf "auth0|owner") acmeArgs acmeArgs
    emptyWorld { sub := "auth0|owner" } { sub := "auth0|owner" } aliceRecord aliceRecord
    { id := 1, name := "Acme", slug := "acme", owner := "auth0|owner"
      members := [{ role := some "OWNER", status := none, email := none
                    member := some { authId := "auth0|owner", alias_ := some "alice" } }] }
    specDb_enforcesSlugUniqueness rfl rfl decodes_owner decodes_owner
    (by simp [lookupRecord, demoServices]) (by simp [lookupRecord, demoServices]) rfl
    (by
      rw [createTeam_of_record demoServices specDb (ctxOf "auth0|owner") acmeArgs emptyWorld
        { sub := "auth0|owner" } aliceRecord rfl decodes_owner
        (by simp [lookupRecord, demoServices])]
      rfl)
  ⟨h.1, h.2.1⟩

/-! ## `sendMemberInviteSG` -/

/-- When the team is found, its first membership has a member, and the upsert
succeeds, `sendMemberInviteSG` reads the team, upserts the membership, calls
the email dispatcher, and returns the promise of the dispatcher. -/
theorem sendMemberInviteSG_of_team {σ : Type} (svc : Services) (db : Db σ) (ctx : Ctx)
    (email : String) (teamId : Id) (w : World σ) (team : Team) (al : Option String) (id : Id)
    (hq : (db.queryTeam w.store teamId).1 = .resolved (some team))
    (ha : firstMemberAlias (some team) = .ok al)
    (hup : (db.upsertTeamMembers (db.queryTeam w.store teamId).2
      (inviteArgs email teamId al)).1 = .resolved id) :
    sendMemberInviteSG svc db ctx email teamId w =
      (svc.sendTeamMemberInvite email team,
       { store := (db.upsertTeamMembers (db.queryTeam w.store teamId).2
           (inviteArgs email teamId al)).2
         trace := w.trace ++ [Event.queryTeam teamId,
           Event.upsertTeamMembers (inviteArgs email teamId al),
           Event.sendTeamMemberInvite email team] }) := by
  simp [sendMemberInviteSG, hq, ha, hup, World.log]

theorem acme_queryTeam : (specDb.queryTeam acmeStore 2).1 = .resolved (some acmeTeam) := by
  decide

theorem acme_firstMemberAlias : firstMemberAlias (some acmeTeam) = .ok (some "alice") := by
  rfl

/-- C7, refuted at a concrete input: the requester `auth0|stranger` holds no
membership on the team `acme`, and `sendMemberInviteSG` still upserts the
membership, calls the email dispatcher and resolves. -/
theorem sendMemberInviteSG_by_stranger :
    holdsManagingMembership acmeTeam "auth0|stranger" = false ∧
      (sendMemberInviteSG demoServices specDb (ctxOf "auth0|stranger") "bob@x.com" 2
          acmeWorld).1 = .resolved "Accepted" ∧
      acmeWorld.since (sendMemberInviteSG demoServices specDb (ctxOf "auth0|stranger")
          "bob@x.com" 2 acmeWorld).2 =
        [Event.queryTeam 2, Event.upsertTeamMembers (inviteArgs "bob@x.com" 2 (some "alice")),
          Event.sendTeamMemberInvite "bob@x.com" acmeTeam] := by
  have h := sendMemberInviteSG_of_team demoServices specDb (ctxOf "auth0|stranger") "bob@x.com" 2
    acmeWorld acmeTeam (some "alice") 4 acme_queryTeam acme_firstMemberAlias rfl
  refine ⟨by decide, ?_, ?_⟩
  · rw [h]
    simp [demoServices]
  · rw [h]
    simp [World.since, acmeWorld]

/-- C7, amended: `sendMemberInviteSG` makes no authorization check.  Whenever
the team lookup yields a team whose first membership has a member and the
upsert succeeds, it performs the team-member upsert and then the email
dispatch, and what it does and returns is the same for every requester,
whatever membership the requester holds. -/
theorem sendMemberInviteSG_ignores_requester {σ : Type} (svc : Services) (db : Db σ)
    (ctx : Ctx) (email : String) (teamId : Id) (w : World σ) (team : Team)
    (al : Option String) (id : Id)
    (hq : (db.queryTeam w.store teamId).1 = .resolved (some team))
    (ha : firstMemberAlias (some team) = .ok al)
    (hup : (db.upsertTeamMembers (db.queryTeam w.store teamId).2
      (inviteArgs email teamId al)).1 = .resolved id) :
    w.since (sendMemberInviteSG svc db ctx email teamId w).2 =
        [Event.queryTeam teamId, Event.upsertTeamMembers (inviteArgs email teamId al),
          Event.sendTeamMemberInvite email team] ∧
      (∀ ctx2 : Ctx, sendMemberInviteSG svc db ctx2 email teamId w =
        sendMemberInviteSG svc db ctx email teamId w) := by
  constructor
  · rw [sendMemberInviteSG_of_team svc db ctx email teamId w team al id hq ha hup, since_append]
  · intro ctx2
    rfl

/-- C7 (amended), at a requester without a membership on the team `acme`. -/
theorem sendMemberInviteSG_ignores_requester_witness :
    acmeWorld.since (sendMemberInviteSG demoServices specDb (ctxOf "auth0|stranger")
          "bob@x.com" 2 acmeWorld).2 =
        [Event.queryTeam 2, Event.upsertTeamMembers (inviteArgs "bob@x.com" 2 (some "alice")),
          Event.sendTeamMemberInvite "bob@x.com" acmeTeam] ∧
      (∀ ctx2 : Ctx, sendMemberInviteSG demoServices specDb ctx2 "bob@x.com" 2 acmeWorld =
        sendMemberInviteSG demoServices specDb (ctxOf "auth0|stranger") "bob@x.com" 2
          acmeWorld) :=
  sendMemberInviteSG_ignores_requester demoServices specDb (ctxOf "auth0|stranger") "bob@x.com"
    2 acmeWorld acmeTeam (some "alice") 4 acme_queryTeam acme_firstMemberAlias rfl

/-- C10, refuted at a concrete input: the team lookup and the upsert succeed,
the email dispatcher rejects, and `sendMemberInviteSG` is rejected with the
error of the dispatcher. -/
theorem sendMemberInviteSG_rejected_by_dispatcher :
    demoServices.sendTeamMemberInvite "carol@x.com" acmeTeam =
        .rejected (newError "Bad Request") ∧
      (sendMemberInviteSG demoServices specDb (ctxOf "auth0|owner") "carol@x.com" 2
          acmeWorld).1 = .rejected (newError "Bad Request") ∧
      Event.upsertTeamMembers (inviteArgs "carol@x.com" 2 (some "alice")) ∈
        acmeWorld.since (sendMemberInviteSG demoServices specDb (ctxOf "auth0|owner")
          "carol@x.com" 2 acmeWorld).2 := by
  have h := sendMemberInviteSG_of_team demoServices specDb (ctxOf "auth0|owner") "carol@x.com" 2
    acmeWorld acmeTeam (some "alice") 4 acme_queryTeam acme_firstMemberAlias rfl
  have hd : demoServices.sendTeamMemberInvite "carol@x.com" acmeTeam =
      .rejected (newError "Bad Request") := by
    simp [demoServices]
  refine ⟨hd, ?_, ?_⟩
  · rw [h]
    exact hd
  · rw [h]
    simp [World.since, acmeWorld]

/-- C10, amended: when the team lookup and the team-member upsert succeed,
`sendMemberInviteSG` settles exactly as the email dispatcher does, after the
upsert has been issued: it resolves with the value of the dispatcher when the
dispatcher resolves, and when the dispatcher rejects it is rejected with the
same error. -/
theorem sendMemberInviteSG_returns_dispatch {σ : Type} (svc : Services) (db : Db σ)
    (ctx : Ctx) (email : String) (teamId : Id) (w : World σ) (team : Team)
    (al : Option String) (id : Id)
    (hq : (db.queryTeam w.store teamId).1 = .resolved (some team))
    (ha : firstMemberAlias (some team) = .ok al)
    (hup : (db.upsertTeamMembers (db.queryTeam w.store teamId).2
      (inviteArgs email teamId al)).1 = .resolved id) :
    (sendMemberInviteSG svc db ctx email teamId w).1 = svc.sendTeamMemberInvite email team ∧
      (∀ e, svc.sendTeamMemberInvite email team = .rejected e →
        (sendMemberInviteSG svc db ctx email teamId w).1 = .rejected e) ∧
      (∀ v, svc.sendTeamMemberInvite email team = .resolved v →
        (sendMemberInviteSG svc db ctx email teamId w).1 = .resolved v) ∧
      (w.since (sendMemberInviteSG svc db ctx email teamId w).2).filter Event.isStoreWrite =
        [Event.upsertTeamMembers (inviteArgs email teamId al)] := by
  rw [sendMemberInviteSG_of_team svc db ctx email teamId w team al id hq ha hup, since_append]
  refine ⟨rfl, fun e he => he, fun v hv => hv, ?_⟩
  simp [Event.isStoreWrite]

/-- C10 (amended), at an invitation whose dispatch is rejected. -/
theorem sendMemberInviteSG_returns_dispatch_witness :
    (sendMemberInviteSG demoServices specDb (ctxOf "auth0|owner") "carol@x.com" 2
        acmeWorld).1 = .rejected (newError "Bad Request") :=
  (sendMemberInviteSG_returns_dispatch demoServices specDb (ctxOf "auth0|owner") "carol@x.com"
      2 acmeWorld acmeTeam (some "alice") 4 acme_queryTeam acme_firstMemberAlias rfl).2.1
    (newError "Bad Request") (by simp [demoServices])

/-! ## `verifyTeamInvite` and the failures of token verification -/

/-- C8: when the invite codec succeeds with claims `c`, `verifyTeamInvite`
resolves with exactly the email of `c` and the team of `c` as `team.slug`; in
every case it calls the codec and nothing else, so it reads and writes nothing
in the store; and it is rejected exactly when the codec is rejected or yields
no claims object. -/
theorem verifyTeamInvite_returns_claims {σ : Type} (svc : Services) (token : String)
    (w : World σ) :
    (∀ c : InviteClaims, svc.verifyInviteToken token = .resolved (some c) →
        (verifyTeamInvite svc token w).1 =
          .resolved { email := c.email, team := { slug := c.team } }) ∧
      (verifyTeamInvite svc token w).2.store = w.store ∧
      w.since (verifyTeamInvite svc token w).2 = [Event.verifyInviteToken token] ∧
      (w.since (verifyTeamInvite svc token w).2).filter Event.isStoreAccess = [] ∧
      ((∃ e, (verifyTeamInvite svc token w).1 = .rejected e) ↔
        ((∃ e, svc.verifyInviteToken token = .rejected e) ∨
          svc.verifyInviteToken token = .resolved none)) := by
  unfold verifyTeamInvite
  cases hv : svc.verifyInviteToken token with
  | pending => simp [World.log, World.since, Event.isStoreAccess, Event.isStoreWrite]
  | rejected e => simp [World.log, World.since, Event.isStoreAccess, Event.isStoreWrite]
  | resolved v =>
    cases v with
    | none => simp [World.log, World.since, Event.isStoreAccess, Event.isStoreWrite]
    | some c => simp [World.log, World.since, Event.isStoreAccess, Event.isStoreWrite]

/-- C8, at the scenario of the specification: the token decodes to
`bob@x.com` and the team `acme`. -/
theorem verifyTeamInvite_returns_claims_witness :
    (verifyTeamInvite demoServices "invite-bob" acmeWorld).1 =
      .resolved { email := some "bob@x.com", team := { slug := some "acme" } } :=
  (verifyTeamInvite_returns_claims demoServices "invite-bob" acmeWorld).1
    { email := some "bob@x.com", team := some "acme" } (by simp [demoServices])

/-- C9, refuted at a concrete input: the verifier rejects the expired token
and the forged token with errors of different kinds, and both `authenticate`
and `verifyTeamInvite` report the two failures with the same error; the kind
of the error raised is replaced by `Error`. -/
theorem token_failures_reported_alike :
    terseServices.validateIdToken "expired-token" ≠
        terseServices.validateIdToken "forged-token" ∧
      (authenticate terseServices specDb "expired-token" emptyWorld).1 =
        (authenticate terseServices specDb "forged-token" emptyWorld).1 ∧
      terseServices.verifyInviteToken "expired-invite" ≠
        terseServices.verifyInviteToken "forged-invite" ∧
      (verifyTeamInvite terseServices "expired-invite" emptyWorld).1 =
        (verifyTeamInvite terseServices "forged-invite" emptyWorld).1 ∧
      (authenticate demoServices specDb "expired-token" emptyWorld).1 =
        .rejected { name := "Error", message := "jwt expired" } := by
  refine ⟨by decide, by decide, by decide, by decide, by decide⟩

/-- C9, amended: when the verifier rejects a token with error `e`,
`authenticate` is rejected with a new `Error` that carries the message of `e`
and nothing else of it, and so is `verifyTeamInvite` for the invite codec; two
failures are therefore reported differently exactly when their messages
differ. -/
theorem token_failure_keeps_message {σ : Type} (svc : Services) (db : Db σ)
    (t1 t2 : String) (e1 e2 : JsError) (w1 w2 : World σ) :
    (svc.validateIdToken t1 = .rejected e1 → svc.validateIdToken t2 = .rejected e2 →
        (authenticate svc db t1 w1).1 = .rejected (newError e1.message) ∧
        (authenticate svc db t2 w2).1 = .rejected (newError e2.message) ∧
        ((authenticate svc db t1 w1).1 ≠ (authenticate svc db t2 w2).1 ↔
          e1.message ≠ e2.message)) ∧
      (svc.verifyInviteToken t1 = .rejected e1 → svc.verifyInviteToken t2 = .rejected e2 →
        (verifyTeamInvite svc t1 w1).1 = .rejected (newError e1.message) ∧
        (verifyTeamInvite svc t2 w2).1 = .rejected (newError e2.message) ∧
        ((verifyTeamInvite svc t1 w1).1 ≠ (verifyTeamInvite svc t2 w2).1 ↔
          e1.message ≠ e2.message)) := by
  constructor
  · intro h1 h2
    simp [authenticate, h1, h2, newError]
  · intro h1 h2
    simp [verifyTeamInvite, h1, h2, newError]

/-- C9 (amended), at the expired and the forged identity token. -/
theorem token_failure_keeps_message_witness :
    (authenticate demoServices specDb "expired-token" emptyWorld).1 =
        .rejected (newError "jwt expired") ∧
      (authenticate demoServices specDb "forged-token" emptyWorld).1 =
        .rejected (newError "invalid signature") ∧
      ((authenticate demoServices specDb "expired-token" emptyWorld).1 ≠
          (authenticate demoServices specDb "forged-token" emptyWorld).1 ↔
        "jwt expired" ≠ "invalid signature") :=
  (token_failure_keeps_message demoServices specDb "expired-token" "forged-token"
      { name := "TokenExpiredError", message := "jwt expired" }
      { name := "JsonWebTokenError", message := "invalid signature" } emptyWorld emptyWorld).1
    (by simp [demoServices]) (by simp [demoServices])

end TeamsApi
